import Mathlib

/-
  Verification of the server-side core of the coderoom collaborative editor.

  The embedding follows the TypeScript sources:
    - shared/ws.types.ts          : Operation, WSMessage
    - backend/src/ot/engine.ts    : OTEngine.transform / apply / validate
    - backend/src/services/documentManager.ts  : DocumentState, applyOperation
    - backend/src/services/connectionManager.ts: handleApplyOp, handleCursorUpdate

  Document content is modelled as `List Char` (JavaScript strings with
  `slice`-based indexing; `List.take`/`List.drop` agree with `slice` for
  non-negative indices, including the clamping behaviour past the end).
  Optional fields (`text?`, `length?`) are `Option`s; `x.getD 0` models the
  JavaScript `x || 0` defaulting used by the engine.  Positions and lengths
  are natural numbers (the wire contract requires them non-negative); in
  every branch where the engine subtracts, the branch guard makes the JS
  result non-negative, so truncated subtraction agrees with JS arithmetic.
-/

deriving instance DecidableEq for Except

namespace Coderoom

/-- Operation payload, from `shared/ws.types.ts`.  The `type` field is kept
as a raw string because the runtime (JavaScript) may carry any tag; the
engine compares it against the literals `"insert"` and `"delete"`. -/
structure Operation where
  opId : String
  docId : String
  userId : String
  baseVersion : Nat
  type : String
  position : Nat
  text : Option (List Char) := none
  length : Option Nat := none
deriving Repr, DecidableEq

namespace OTEngine

/-- `OTEngine.transform(op, otherOp)` from `backend/src/ot/engine.ts`:
shifts `op` so that it can be applied after `otherOp`. -/
def transform (op otherOp : Operation) : Operation :=
  if otherOp.type = "insert" then
    -- Case A: concurrent insert before our operation
    if otherOp.position ≤ op.position then
      { op with position := op.position + (otherOp.text.getD []).length }
    else op
  else if otherOp.type = "delete" then
    let deleteStart := otherOp.position
    let deleteEnd := otherOp.position + otherOp.length.getD 0
    -- Case B: concurrent delete before / overlapping our position
    let t1 :=
      if deleteEnd ≤ op.position then
        { op with position := op.position - otherOp.length.getD 0 }
      else if deleteStart < op.position ∧ op.position < deleteEnd then
        { op with position := deleteStart }
      else op
    -- Case C: our operation is a delete and there is overlap
    if op.type = "delete" then
      let ourDeleteEnd := op.position + op.length.getD 0
      if deleteStart ≤ op.position ∧ ourDeleteEnd ≤ deleteEnd then
        { t1 with length := some 0 }
      else if deleteStart < ourDeleteEnd ∧ op.position < deleteEnd then
        let overlapStart := max deleteStart op.position
        let overlapEnd := min deleteEnd ourDeleteEnd
        let overlapLength := overlapEnd - overlapStart
        let t2 := { t1 with length := some (t1.length.getD 0 - overlapLength) }
        if deleteStart ≤ op.position then { t2 with position := deleteStart } else t2
      else t1
    else t1
  else op

/-- `OTEngine.apply(content, op)`: applies an operation to the content.
JavaScript `slice` clamps out-of-range indices, matching `take`/`drop`. -/
def apply (content : List Char) (op : Operation) : List Char :=
  if op.type = "insert" then
    content.take op.position ++ op.text.getD [] ++ content.drop op.position
  else if op.type = "delete" then
    content.take op.position ++ content.drop (op.position + op.length.getD 0)
  else content

/-- `OTEngine.validate(content, op)`: checks the operation against the given
content.  A negative position cannot occur in the `Nat` model; the remaining
checks mirror the source line by line (`!!op.text && op.text.length > 0`
rejects a missing and an empty text alike). -/
def validate (content : List Char) (op : Operation) : Bool :=
  if content.length < op.position then false
  else if op.type = "insert" then
    match op.text with
    | some t => !t.isEmpty
    | none => false
  else if op.type = "delete" then
    decide (0 < op.length.getD 0) && decide (op.position + op.length.getD 0 ≤ content.length)
  else false

end OTEngine

/-- In-memory per-document state, from `documentManager.ts`.  The two
persistence bookkeeping fields (`lastSaveTime`, a wall-clock timestamp, and
`opsSinceLastSave`, a counter) feed only the write-back trigger condition
`timeSinceLastSave >= SAVE_INTERVAL || opsSinceLastSave >= SAVE_OP_THRESHOLD`;
that trigger is abstracted as the boolean `persistDue` parameter of
`applyOperationWithPersist` below (wall-clock time has no shallow
embedding), so the fields themselves are not carried here. -/
structure DocumentState where
  content : List Char
  version : Nat
  pendingOps : List Operation
deriving Repr, DecidableEq

namespace DocumentManager

/-- The transform step of `applyOperation`: if the operation's base version
is behind, fold `OTEngine.transform` over the retained pending operations
whose `baseVersion` is at least the operation's own. -/
def transformAgainstTail (state : DocumentState) (op : Operation) : Operation :=
  if op.baseVersion < state.version then
    (state.pendingOps.filter fun p => decide (op.baseVersion ≤ p.baseVersion)).foldl
      OTEngine.transform op
  else op

/-- The pre-persist core of `DocumentManager.applyOperation` on an
already-loaded document (documentManager.ts lines 45-67 plus the final
return): validate the incoming operation against the current content,
transform it against the retained tail when stale, apply it, bump the
version and append the transformed operation to `pendingOps`.  A thrown
`Error('Invalid operation')` is modelled as `Except.error`.  The full
method, including the conditional write-back that runs after these
mutations, is `applyOperationWithPersist`. -/
def applyOperation (state : DocumentState) (op : Operation) :
    Except String (DocumentState × Nat × Operation) :=
  if ¬ OTEngine.validate state.content op then .error "Invalid operation"
  else
    let transformedOp := transformAgainstTail state op
    .ok ({ content := OTEngine.apply state.content transformedOp,
           version := state.version + 1,
           pendingOps := state.pendingOps ++ [transformedOp] },
         state.version + 1, transformedOp)

/-- `DocumentManager.persistDocument`: writes `{content, version}` to the
durable store, whose outcome is the external input `store`.  If the store
write rejects, the rejection propagates and nothing else in the function
runs; on success the save counters reset and `pendingOps` is truncated to
its last 10 entries (`pendingOps.slice(-10)`). -/
def persistDocument (state : DocumentState) (store : Except String Unit) :
    Except String DocumentState :=
  match store with
  | .error e => .error e
  | .ok _ =>
      .ok { state with
            pendingOps := state.pendingOps.drop (state.pendingOps.length - 10) }

/-- The full `DocumentManager.applyOperation` including the conditional
write-back (documentManager.ts lines 70-76): after the core has mutated
`content`, `version` and `pendingOps`, when the save interval or op-count
threshold is due (`persistDue`) the method awaits `persistDocument`; a
store-write failure propagates out of `applyOperation` **after** the
mutations, leaving the already-mutated state in place.  The result pairs
the state the document registry holds afterwards with the return value or
the propagated error. -/
def applyOperationWithPersist (state : DocumentState) (op : Operation)
    (persistDue : Bool) (store : Except String Unit) :
    DocumentState × Except String (Nat × Operation) :=
  match applyOperation state op with
  | .error e => (state, .error e)
  | .ok (st1, n, t) =>
      if persistDue then
        match persistDocument st1 store with
        | .error e => (st1, .error e)
        | .ok st2 => (st2, .ok (n, t))
      else (st1, .ok (n, t))

end DocumentManager

/-- A connected client session, from `connectionManager.ts`. -/
structure Client where
  userId : String
  docId : Option String
deriving Repr, DecidableEq

/-- Server-to-client messages relevant to the claims, from
`shared/ws.types.ts`.  The cursor broadcast's `userId` is an `Option`
because the JavaScript object may or may not carry the property; the
declared wire type has none. -/
inductive WSMessage where
  | ackOp (opId : String) (newVersion : Nat)
  | broadcastOp (op : Operation)
  | cursorUpdate (userId : Option String) (position : Nat)
  | error (message : String)
deriving Repr, DecidableEq

/-- Outcome of handling one `APPLY_OP` message: the updated document state,
the messages sent to the originating session, and the messages broadcast to
the other sessions of the document. -/
structure ApplyOpResult where
  newState : DocumentState
  toOrigin : List WSMessage
  toPeers : List WSMessage
deriving Repr, DecidableEq

namespace ConnectionManager

/-- `handleApplyOp` together with the `try/catch` in `handleMessage`:
if the client has no joined document, nothing happens; on success the
originator gets `ACK_OP{opId, newVersion}` and the peers get
`BROADCAST_OP{transformedOp}`; on failure the originator alone gets
`ERROR{message}` and the state is untouched. -/
def handleApplyOp (client : Client) (state : DocumentState) (op : Operation) :
    ApplyOpResult :=
  match client.docId with
  | none => { newState := state, toOrigin := [], toPeers := [] }
  | some _ =>
    match DocumentManager.applyOperation state op with
    | .ok (st, newVersion, transformedOp) =>
        { newState := st,
          toOrigin := [.ackOp op.opId newVersion],
          toPeers := [.broadcastOp transformedOp] }
    | .error e =>
        { newState := state,
          toOrigin := [.error e],
          toPeers := [] }

/-- `handleApplyOp` with the full document path including the conditional
write-back: `await applyOperation` covers the persist step, so a store
failure raised there is caught by `handleMessage` too and becomes an
`ERROR` to the originator — sent while the document state is already
mutated.  `ACK_OP` and `BROADCAST_OP` are only sent when no error (from
validation or from the store write) was thrown. -/
def handleApplyOpWithPersist (client : Client) (state : DocumentState)
    (op : Operation) (persistDue : Bool) (store : Except String Unit) :
    ApplyOpResult :=
  match client.docId with
  | none => { newState := state, toOrigin := [], toPeers := [] }
  | some _ =>
    match DocumentManager.applyOperationWithPersist state op persistDue store with
    | (st, .ok (newVersion, transformedOp)) =>
        { newState := st,
          toOrigin := [.ackOp op.opId newVersion],
          toPeers := [.broadcastOp transformedOp] }
    | (st, .error e) =>
        { newState := st,
          toOrigin := [.error e],
          toPeers := [] }

/-- `handleCursorUpdate`: when the client has joined a document, the message
`{type: 'CURSOR_UPDATE', position}` is broadcast to the other sessions of
that document; the object carries no `userId` property. -/
def handleCursorUpdate (client : Client) (position : Nat) : Option WSMessage :=
  match client.docId with
  | none => none
  | some _ => some (.cursorUpdate none position)

end ConnectionManager

/-- Projection of the optional `userId` property of a cursor message object
(used to state what a cursor broadcast does and does not carry). -/
def WSMessage.userIdField : WSMessage → Option String
  | .cursorUpdate u _ => u
  | _ => none

/-- Fixture: an insert operation with the given user, position, text and
base version. -/
def mkInsert (u : String) (p : Nat) (t : List Char) (bv : Nat) : Operation :=
  { opId := "op-ins", docId := "doc1", userId := u, baseVersion := bv,
    type := "insert", position := p, text := some t }

/-- Fixture: a delete operation with the given user, position, length and
base version. -/
def mkDelete (u : String) (p l bv : Nat) : Operation :=
  { opId := "op-del", docId := "doc1", userId := u, baseVersion := bv,
    type := "delete", position := p, length := some l }

section Helpers

open OTEngine DocumentManager ConnectionManager

/-- `transform` builds its result by record updates of `op` that touch only
`position` and `length`; every other field is copied verbatim. -/
lemma transform_fields (op other : Operation) :
    (transform op other).opId = op.opId ∧ (transform op other).docId = op.docId ∧
    (transform op other).userId = op.userId ∧
    (transform op other).baseVersion = op.baseVersion ∧
    (transform op other).type = op.type ∧ (transform op other).text = op.text := by
  unfold transform
  split_ifs <;>
    simp [apply_ite Operation.opId, apply_ite Operation.docId,
      apply_ite Operation.userId, apply_ite Operation.baseVersion,
      apply_ite Operation.type, apply_ite Operation.text]

lemma foldl_transform_userId : ∀ (l : List Operation) (op : Operation),
    (l.foldl transform op).userId = op.userId
  | [], _ => rfl
  | h :: t, op => by
      rw [List.foldl_cons, foldl_transform_userId t, (transform_fields op h).2.2.1]

lemma foldl_transform_type : ∀ (l : List Operation) (op : Operation),
    (l.foldl transform op).type = op.type
  | [], _ => rfl
  | h :: t, op => by
      rw [List.foldl_cons, foldl_transform_type t, (transform_fields op h).2.2.2.2.1]

lemma transformAgainstTail_userId (state : DocumentState) (op : Operation) :
    (transformAgainstTail state op).userId = op.userId := by
  unfold transformAgainstTail
  split_ifs <;> simp [foldl_transform_userId]

lemma transformAgainstTail_type (state : DocumentState) (op : Operation) :
    (transformAgainstTail state op).type = op.type := by
  unfold transformAgainstTail
  split_ifs <;> simp [foldl_transform_type]

lemma applyOperation_ok (state : DocumentState) (op : Operation)
    (h : validate state.content op = true) :
    applyOperation state op =
      .ok ({ content := OTEngine.apply state.content (transformAgainstTail state op),
             version := state.version + 1,
             pendingOps := state.pendingOps ++ [transformAgainstTail state op] },
           state.version + 1, transformAgainstTail state op) := by
  simp [applyOperation, h]

lemma applyOperation_error (state : DocumentState) (op : Operation)
    (h : validate state.content op = false) :
    applyOperation state op = .error "Invalid operation" := by
  simp [applyOperation, h]

lemma applyOperationWithPersist_validate_false (state : DocumentState)
    (op : Operation) (persistDue : Bool) (store : Except String Unit)
    (hv : validate state.content op = false) :
    applyOperationWithPersist state op persistDue store =
      (state, .error "Invalid operation") := by
  unfold applyOperationWithPersist
  rw [applyOperation_error state op hv]

lemma applyOperationWithPersist_noPersist (state : DocumentState)
    (op : Operation) (store : Except String Unit)
    (hv : validate state.content op = true) :
    applyOperationWithPersist state op false store =
      ({ content := OTEngine.apply state.content (transformAgainstTail state op),
         version := state.version + 1,
         pendingOps := state.pendingOps ++ [transformAgainstTail state op] },
       .ok (state.version + 1, transformAgainstTail state op)) := by
  unfold applyOperationWithPersist
  rw [applyOperation_ok state op hv]
  rfl

lemma applyOperationWithPersist_persist_ok (state : DocumentState)
    (op : Operation) (u : Unit)
    (hv : validate state.content op = true) :
    (applyOperationWithPersist state op true (.ok u)).2 =
      .ok (state.version + 1, transformAgainstTail state op) := by
  unfold applyOperationWithPersist
  rw [applyOperation_ok state op hv]
  rfl

lemma applyOperationWithPersist_persist_fail (state : DocumentState)
    (op : Operation) (e : String)
    (hv : validate state.content op = true) :
    applyOperationWithPersist state op true (.error e) =
      ({ content := OTEngine.apply state.content (transformAgainstTail state op),
         version := state.version + 1,
         pendingOps := state.pendingOps ++ [transformAgainstTail state op] },
       .error e) := by
  unfold applyOperationWithPersist
  rw [applyOperation_ok state op hv]
  rfl

lemma handleApplyOpWithPersist_noPersist (client : Client)
    (state : DocumentState) (op : Operation) (store : Except String Unit) :
    handleApplyOpWithPersist client state op false store =
      handleApplyOp client state op := by
  unfold handleApplyOpWithPersist handleApplyOp applyOperationWithPersist
  cases client.docId with
  | none => rfl
  | some d =>
    cases hao : applyOperation state op with
    | error e => rfl
    | ok r =>
      obtain ⟨st, n, t⟩ := r
      rfl

lemma apply_zero_length_delete (s : List Char) (t : Operation)
    (ht : t.type = "delete") (hz : t.length.getD 0 = 0) :
    OTEngine.apply s t = s := by
  simp [OTEngine.apply, ht, hz]

lemma applyOperation_isOk_transformedOp (state : DocumentState) (op : Operation)
    (st : DocumentState) (n : Nat) (t : Operation)
    (h : applyOperation state op = .ok (st, n, t)) :
    t = transformAgainstTail state op := by
  by_cases hv : validate state.content op
  · rw [applyOperation_ok state op hv] at h
    simp only [Except.ok.injEq, Prod.mk.injEq] at h
    exact h.2.2.symm
  · rw [applyOperation_error state op (by simpa using hv)] at h
    cases h

/- Slice toolkit: `List.take`/`List.drop` arithmetic used to reason about
`apply`.  `insertAt` and `deleteAt` abbreviate the two shapes `apply`
produces. -/

def insertAt (s : List Char) (p : Nat) (t : List Char) : List Char :=
  s.take p ++ t ++ s.drop p

def deleteAt (s : List Char) (p l : Nat) : List Char :=
  s.take p ++ s.drop (p + l)

lemma apply_insert_eq (s : List Char) (op : Operation) (h : op.type = "insert") :
    OTEngine.apply s op = insertAt s op.position (op.text.getD []) := by
  simp [OTEngine.apply, insertAt, h]

lemma apply_delete_eq (s : List Char) (op : Operation) (h : op.type = "delete") :
    OTEngine.apply s op = deleteAt s op.position (op.length.getD 0) := by
  simp [OTEngine.apply, deleteAt, h]

lemma take_app_le {α : Type} (l1 l2 : List α) {n : Nat} (h : n ≤ l1.length) :
    (l1 ++ l2).take n = l1.take n := by
  rw [List.take_append_eq_append_take, Nat.sub_eq_zero_of_le h]
  simp

lemma take_app_ge {α : Type} (l1 l2 : List α) {n : Nat} (h : l1.length ≤ n) :
    (l1 ++ l2).take n = l1 ++ l2.take (n - l1.length) := by
  rw [List.take_append_eq_append_take, List.take_of_length_le h]

lemma drop_app_le {α : Type} (l1 l2 : List α) {n : Nat} (h : n ≤ l1.length) :
    (l1 ++ l2).drop n = l1.drop n ++ l2 := by
  rw [List.drop_append_eq_append_drop, Nat.sub_eq_zero_of_le h]
  simp

lemma drop_app_ge {α : Type} (l1 l2 : List α) {n : Nat} (h : l1.length ≤ n) :
    (l1 ++ l2).drop n = l2.drop (n - l1.length) := by
  rw [List.drop_append_eq_append_drop, List.drop_eq_nil_of_le h]
  simp

lemma length_take_eq (s : List Char) {p : Nat} (h : p ≤ s.length) :
    (s.take p).length = p := by simp [h]

/- Composition lemmas: each computes the two-step application used on one
side of a TP1 equation as a single slice expression over the base. -/

lemma insertAt_insertAt (s ta tb : List Char) (pa pb : Nat)
    (hab : pa ≤ pb) (hpb : pb ≤ s.length) :
    insertAt (insertAt s pa ta) (pb + ta.length) tb =
      insertAt (insertAt s pb tb) pa ta := by
  have hpa : pa ≤ s.length := le_trans hab hpb
  unfold insertAt
  simp only [List.append_assoc]
  rw [take_app_ge (s.take pa) (ta ++ s.drop pa)
        (by rw [length_take_eq s hpa]; omega),
      drop_app_ge (s.take pa) (ta ++ s.drop pa)
        (by rw [length_take_eq s hpa]; omega),
      length_take_eq s hpa,
      take_app_ge ta (s.drop pa) (by omega),
      drop_app_ge ta (s.drop pa) (by omega),
      List.drop_drop,
      take_app_le (s.take pb) (tb ++ s.drop pb)
        (by rw [length_take_eq s hpb]; omega),
      drop_app_le (s.take pb) (tb ++ s.drop pb)
        (by rw [length_take_eq s hpb]; omega),
      List.take_take, List.drop_take]
  have e1 : pb + ta.length - pa - ta.length = pb - pa := by omega
  have e2 : pa + (pb - pa) = pb := by omega
  have e3 : min pa pb = pa := by omega
  rw [e1, e2, e3]
  simp [List.append_assoc]

lemma deleteAt_insertAt_left (s t : List Char) (pi pd l : Nat)
    (hid : pi ≤ pd) (hd : pd + l ≤ s.length) :
    deleteAt (insertAt s pi t) (pd + t.length) l =
      insertAt (deleteAt s pd l) pi t := by
  have hpi : pi ≤ s.length := by omega
  have hpd : pd ≤ s.length := by omega
  unfold insertAt deleteAt
  simp only [List.append_assoc]
  rw [take_app_ge (s.take pi) (t ++ s.drop pi)
        (by rw [length_take_eq s hpi]; omega),
      drop_app_ge (s.take pi) (t ++ s.drop pi)
        (by rw [length_take_eq s hpi]; omega),
      length_take_eq s hpi,
      take_app_ge t (s.drop pi) (by omega),
      drop_app_ge t (s.drop pi) (by omega),
      List.drop_drop,
      take_app_le (s.take pd) (s.drop (pd + l))
        (by rw [length_take_eq s hpd]; omega),
      drop_app_le (s.take pd) (s.drop (pd + l))
        (by rw [length_take_eq s hpd]; omega),
      List.take_take, List.drop_take]
  have e1 : pd + t.length - pi - t.length = pd - pi := by omega
  have e2 : pi + (pd + t.length + l - pi - t.length) = pd + l := by omega
  have e3 : min pi pd = pi := by omega
  rw [e1, e2, e3]
  simp [List.append_assoc]

lemma deleteAt_insertAt_right (s t : List Char) (pi pd l : Nat)
    (hdi : pd + l ≤ pi) (hpi : pi ≤ s.length) :
    deleteAt (insertAt s pi t) pd l =
      insertAt (deleteAt s pd l) (pi - l) t := by
  have hpd : pd ≤ s.length := by omega
  unfold insertAt deleteAt
  simp only [List.append_assoc]
  rw [take_app_le (s.take pi) (t ++ s.drop pi)
        (by rw [length_take_eq s hpi]; omega),
      drop_app_le (s.take pi) (t ++ s.drop pi)
        (by rw [length_take_eq s hpi]; omega),
      List.take_take, List.drop_take,
      take_app_ge (s.take pd) (s.drop (pd + l))
        (by rw [length_take_eq s hpd]; omega),
      drop_app_ge (s.take pd) (s.drop (pd + l))
        (by rw [length_take_eq s hpd]; omega),
      length_take_eq s hpd,
      List.drop_drop]
  have e1 : min pd pi = pd := by omega
  have e2 : pi - (pd + l) = pi - l - pd := by omega
  have e3 : pd + l + (pi - l - pd) = pi := by omega
  rw [e1, e2, e3]
  simp [List.append_assoc]

lemma deleteAt_deleteAt (s : List Char) (pa la pb lb : Nat)
    (hva : pa + la ≤ s.length)
    (h1 : pa < pb + lb) (h2 : pb < pa + la) :
    deleteAt (deleteAt s pa la) (min pa pb)
        (lb - (min (pa + la) (pb + lb) - max pa pb)) =
      s.take (min pa pb) ++ s.drop (max (pa + la) (pb + lb)) := by
  have hpa : pa ≤ s.length := by omega
  unfold deleteAt
  rw [take_app_le (s.take pa) (s.drop (pa + la))
        (by rw [length_take_eq s hpa]; omega),
      List.take_take]
  have e3 : min (min pa pb) pa = min pa pb := by omega
  have key : min pa pb + (lb - (min (pa + la) (pb + lb) - max pa pb)) =
      pa + (max (pa + la) (pb + lb) - (pa + la)) := by omega
  rw [e3, key,
      drop_app_ge (s.take pa) (s.drop (pa + la))
        (by rw [length_take_eq s hpa]; omega),
      length_take_eq s hpa]
  have e4 : pa + (max (pa + la) (pb + lb) - (pa + la)) - pa =
      max (pa + la) (pb + lb) - (pa + la) := by omega
  rw [e4, List.drop_drop]
  have e5 : pa + la + (max (pa + la) (pb + lb) - (pa + la)) =
      max (pa + la) (pb + lb) := by omega
  rw [e5]

/- Branch characterizations of `transform`, one per reachable shape. -/

lemma transform_other_insert_le (op other : Operation) (ht : other.type = "insert")
    (h : other.position ≤ op.position) :
    transform op other =
      { op with position := op.position + (other.text.getD []).length } := by
  simp [transform, ht, h]

lemma transform_other_insert_gt (op other : Operation) (ht : other.type = "insert")
    (h : op.position < other.position) :
    transform op other = op := by
  simp [transform, ht, Nat.not_le.2 h]

lemma transform_ins_del_before (op other : Operation) (hop : op.type = "insert")
    (ht : other.type = "delete")
    (h : other.position + other.length.getD 0 ≤ op.position) :
    transform op other =
      { op with position := op.position - other.length.getD 0 } := by
  simp [transform, hop, ht, h]

lemma transform_ins_del_unchanged (op other : Operation) (hop : op.type = "insert")
    (ht : other.type = "delete")
    (h1 : ¬ other.position + other.length.getD 0 ≤ op.position)
    (h2 : ¬ other.position < op.position) :
    transform op other = op := by
  simp [transform, hop, ht, h1, h2]

lemma transform_del_del_overlap (op other : Operation) (hop : op.type = "delete")
    (ht : other.type = "delete")
    (h1 : other.position < op.position + op.length.getD 0)
    (h2 : op.position < other.position + other.length.getD 0) :
    transform op other =
      { op with
        position := min other.position op.position,
        length := some (op.length.getD 0 -
          (min (other.position + other.length.getD 0)
               (op.position + op.length.getD 0) -
           max other.position op.position)) } := by
  unfold transform
  rw [if_neg (by simp [ht]), if_pos ht, if_pos hop]
  dsimp only
  split_ifs
  all_goals
    first
      | (exfalso; omega)
      | (simp only [Operation.mk.injEq, Option.some.injEq, and_true, true_and,
           eq_self_iff_true]
         try omega)

/- Facts extracted from a successful `validate`. -/

lemma validate_position_le (s : List Char) (op : Operation)
    (h : validate s op = true) : op.position ≤ s.length := by
  by_cases h1 : s.length < op.position
  · rw [validate, if_pos h1] at h
    exact absurd h (by decide)
  · omega

lemma validate_delete_facts (s : List Char) (op : Operation)
    (h : validate s op = true) (ht : op.type = "delete") :
    0 < op.length.getD 0 ∧ op.position + op.length.getD 0 ≤ s.length := by
  simp [validate, ht] at h
  omega

/- TP1 case lemmas: one convergence equation per geometric configuration. -/

lemma tp1_ins_ins_lt (s : List Char) (a b : Operation)
    (hb : validate s b = true)
    (hat : a.type = "insert") (hbt : b.type = "insert")
    (h : a.position < b.position) :
    OTEngine.apply (OTEngine.apply s a) (transform b a) =
      OTEngine.apply (OTEngine.apply s b) (transform a b) := by
  have hpb : b.position ≤ s.length := validate_position_le s b hb
  rw [transform_other_insert_le b a hat h.le,
      transform_other_insert_gt a b hbt h,
      apply_insert_eq s a hat, apply_insert_eq s b hbt,
      apply_insert_eq _
        { b with position := b.position + (a.text.getD []).length } hbt,
      apply_insert_eq _ a hat]
  exact insertAt_insertAt s (a.text.getD []) (b.text.getD [])
    a.position b.position h.le hpb

lemma tp1_ins_del_left (s : List Char) (a b : Operation)
    (hb : validate s b = true)
    (hat : a.type = "insert") (hbt : b.type = "delete")
    (h : a.position ≤ b.position) :
    OTEngine.apply (OTEngine.apply s a) (transform b a) =
      OTEngine.apply (OTEngine.apply s b) (transform a b) := by
  obtain ⟨hlb, hbound⟩ := validate_delete_facts s b hb hbt
  rw [transform_other_insert_le b a hat h,
      transform_ins_del_unchanged a b hat hbt (by omega) (by omega),
      apply_insert_eq s a hat, apply_delete_eq s b hbt,
      apply_delete_eq _
        { b with position := b.position + (a.text.getD []).length } hbt,
      apply_insert_eq _ a hat]
  exact deleteAt_insertAt_left s (a.text.getD []) a.position b.position
    (b.length.getD 0) h hbound

lemma tp1_ins_del_right (s : List Char) (a b : Operation)
    (ha : validate s a = true) (hb : validate s b = true)
    (hat : a.type = "insert") (hbt : b.type = "delete")
    (h : b.position + b.length.getD 0 ≤ a.position) :
    OTEngine.apply (OTEngine.apply s a) (transform b a) =
      OTEngine.apply (OTEngine.apply s b) (transform a b) := by
  obtain ⟨hlb, hbound⟩ := validate_delete_facts s b hb hbt
  have hpa : a.position ≤ s.length := validate_position_le s a ha
  rw [transform_other_insert_gt b a hat (by omega),
      transform_ins_del_before a b hat hbt h,
      apply_insert_eq s a hat, apply_delete_eq s b hbt,
      apply_delete_eq _ b hbt,
      apply_insert_eq _
        { a with position := a.position - b.length.getD 0 } hat]
  exact deleteAt_insertAt_right s (a.text.getD []) a.position b.position
    (b.length.getD 0) h hpa

end Helpers

section Claims

open OTEngine DocumentManager ConnectionManager

/- ### C9 -/

/-- C9: for every pair of operations, `transform(op, other)` changes at most
the `position` and `length` fields of `op`: the result keeps the same
`opId`, `docId`, `userId`, `baseVersion`, `type`, and `text` as `op`. -/
theorem transform_changes_only_position_length (op other : Operation) :
    (transform op other).opId = op.opId ∧ (transform op other).docId = op.docId ∧
    (transform op other).userId = op.userId ∧
    (transform op other).baseVersion = op.baseVersion ∧
    (transform op other).type = op.type ∧ (transform op other).text = op.text :=
  transform_fields op other

/- ### C10 -/

/-- C10: `apply` is a total function (it never fails) and clamps like
JavaScript `slice`: when `position` exceeds the content length, an insert
appends its text at the end and a delete leaves the content unchanged; an
operation whose `type` is neither `"insert"` nor `"delete"` leaves the
content unchanged. -/
theorem apply_total_and_clamped (s : List Char) (op : Operation) :
    (s.length < op.position →
       (op.type = "insert" → OTEngine.apply s op = s ++ op.text.getD []) ∧
       (op.type = "delete" → OTEngine.apply s op = s)) ∧
    (op.type ≠ "insert" → op.type ≠ "delete" → OTEngine.apply s op = s) := by
  refine ⟨fun h => ⟨fun hi => ?_, fun hd => ?_⟩, fun h1 h2 => ?_⟩
  · simp [OTEngine.apply, hi, List.take_of_length_le h.le,
      List.drop_eq_nil_of_le h.le]
  · simp [OTEngine.apply, hd, List.take_of_length_le h.le,
      List.drop_eq_nil_of_le (Nat.le_add_right_of_le h.le)]
  · simp [OTEngine.apply, h1, h2]

/-- Witness for C10 at concrete inputs: an insert at position 5 into a
2-character content appends at the end. -/
theorem apply_total_and_clamped_witness :
    (['a', 'b'] : List Char).length < 5 ∧
    OTEngine.apply ['a', 'b']
      { opId := "w", docId := "d", userId := "u", baseVersion := 0,
        type := "insert", position := 5, text := some ['x'] } =
      ['a', 'b', 'x'] := by
  refine ⟨by decide, ?_⟩
  have h := (apply_total_and_clamped ['a', 'b']
    { opId := "w", docId := "d", userId := "u", baseVersion := 0,
      type := "insert", position := 5, text := some ['x'] }).1 (by decide) |>.1 rfl
  simpa using h

/- ### C1 -/

/-- C1 counterexample: a session authenticated as `"alice"` submits an
operation whose payload claims `userId = "mallory"`; the op broadcast in
`BROADCAST_OP` still carries `"mallory"`, not the session's authenticated
identity, so the server does not replace `op.userId`. -/
theorem broadcast_userId_not_overwritten_cex :
    (handleApplyOp ⟨"alice", some "doc1"⟩ ⟨['h', 'i'], 0, []⟩
        (mkInsert "mallory" 0 ['x'] 0)).toPeers =
      [.broadcastOp (mkInsert "mallory" 0 ['x'] 0)] ∧
    (mkInsert "mallory" 0 ['x'] 0).userId = "mallory" ∧
    (Client.mk "alice" (some "doc1")).userId ≠ "mallory" := by decide

/-- C1 amended: the server never substitutes the session's authenticated
userId; the op carried by `BROADCAST_OP` keeps exactly the `userId` of the
client's payload (`transform` and `applyOperation` never touch that
field). -/
theorem broadcast_userId_eq_payload (client : Client) (state : DocumentState)
    (op t : Operation)
    (h : (handleApplyOp client state op).toPeers = [.broadcastOp t]) :
    t.userId = op.userId := by
  unfold handleApplyOp at h
  cases hcd : client.docId with
  | none => rw [hcd] at h; simp at h
  | some d =>
    rw [hcd] at h
    cases hap : applyOperation state op with
    | error e => rw [hap] at h; simp at h
    | ok r =>
      obtain ⟨st, n, top⟩ := r
      rw [hap] at h
      simp only [WSMessage.broadcastOp.injEq, List.cons.injEq, and_true] at h
      rw [← h, applyOperation_isOk_transformedOp state op st n top hap,
        transformAgainstTail_userId]

/-- Witness for C1: at the counterexample inputs, the broadcast op's userId
is the payload's. -/
theorem broadcast_userId_eq_payload_witness :
    (handleApplyOp ⟨"alice", some "doc1"⟩ ⟨['h', 'i'], 0, []⟩
        (mkInsert "mallory" 0 ['x'] 0)).toPeers =
      [.broadcastOp (mkInsert "mallory" 0 ['x'] 0)] ∧
    (mkInsert "mallory" 0 ['x'] 0).userId =
      (mkInsert "mallory" 0 ['x'] 0).userId :=
  ⟨by decide,
   broadcast_userId_eq_payload ⟨"alice", some "doc1"⟩ ⟨['h', 'i'], 0, []⟩
     (mkInsert "mallory" 0 ['x'] 0) (mkInsert "mallory" 0 ['x'] 0) (by decide)⟩

/- ### C2 -/

/-- C2 counterexample: with `version = 0` and `baseVersion = 5 > 0`,
`applyOperation` does not fail with `FromTheFuture` (no such check exists):
it succeeds and applies the operation untransformed. -/
theorem applyOperation_accepts_future_baseVersion_cex :
    (DocumentState.mk ['a', 'b', 'c'] 0 []).version <
      (mkInsert "u" 0 ['x'] 5).baseVersion ∧
    applyOperation ⟨['a', 'b', 'c'], 0, []⟩ (mkInsert "u" 0 ['x'] 5) =
      .ok (⟨['x', 'a', 'b', 'c'], 1, [mkInsert "u" 0 ['x'] 5]⟩, 1,
        mkInsert "u" 0 ['x'] 5) := by decide

/-- C2 amended: `applyOperation` performs no baseVersion range checks and
has no `FromTheFuture` / `TooStale` failures: every operation that
validates against the current content is accepted and applied, whatever its
`baseVersion`; an op with `baseVersion ≥ version` is applied untransformed,
and a stale op is transformed only against the retained `pendingOps` with
`baseVersion ≥ op.baseVersion`, however far behind it is. -/
theorem applyOperation_no_version_window (state : DocumentState)
    (op : Operation) (h : validate state.content op = true) :
    applyOperation state op =
      .ok ({ content := OTEngine.apply state.content
               (transformAgainstTail state op),
             version := state.version + 1,
             pendingOps := state.pendingOps ++ [transformAgainstTail state op] },
           state.version + 1, transformAgainstTail state op) ∧
    (state.version ≤ op.baseVersion → transformAgainstTail state op = op) := by
  refine ⟨applyOperation_ok state op h, fun hv => ?_⟩
  simp [transformAgainstTail, Nat.not_lt.2 hv]

/-- Witness for C2: a valid op from the future (`baseVersion = 5`,
`version = 0`) is accepted and untransformed. -/
theorem applyOperation_no_version_window_witness :
    applyOperation ⟨['a', 'b', 'c'], 0, []⟩ (mkInsert "u" 0 ['x'] 5) =
      .ok (⟨['x', 'a', 'b', 'c'], 1, [mkInsert "u" 0 ['x'] 5]⟩, 1,
        mkInsert "u" 0 ['x'] 5) ∧
    transformAgainstTail ⟨['a', 'b', 'c'], 0, []⟩ (mkInsert "u" 0 ['x'] 5) =
      mkInsert "u" 0 ['x'] 5 := by
  have h := applyOperation_no_version_window ⟨['a', 'b', 'c'], 0, []⟩
    (mkInsert "u" 0 ['x'] 5) (by decide)
  exact ⟨by rw [h.1]; rfl, h.2 (by decide)⟩

/- ### C3 -/

/-- Fixture for C3: `delete(0,4)` already applied (content shrank from
`abcdefgh` to `efgh`, version 1); the stale `delete(1,2)` is fully covered
by it, so its transform has length 0. -/
def exC3state : DocumentState := ⟨['e', 'f', 'g', 'h'], 1, [mkDelete "u" 0 4 0]⟩

/-- Fixture for C3: the stale, fully-covered delete. -/
def exC3op : Operation := mkDelete "bob" 1 2 0

/-- C3 counterexample: an operation whose length becomes 0 after transform
is **not** special-cased: it is still applied, appended to `pendingOps`,
advances `version`, is acknowledged with the advanced (not the unchanged)
version, and is broadcast to peers. -/
theorem noop_transform_applied_cex :
    (transformAgainstTail exC3state exC3op).length = some 0 ∧
    validate exC3state.content exC3op = true ∧
    (handleApplyOp ⟨"alice", some "doc1"⟩ exC3state exC3op).toPeers ≠ [] ∧
    (handleApplyOp ⟨"alice", some "doc1"⟩ exC3state exC3op).toOrigin =
      [.ackOp "op-del" (exC3state.version + 1)] ∧
    (handleApplyOp ⟨"alice", some "doc1"⟩ exC3state exC3op).newState.version =
      exC3state.version + 1 ∧
    (handleApplyOp ⟨"alice", some "doc1"⟩ exC3state exC3op).newState.pendingOps ≠
      exC3state.pendingOps := by decide

/-- C3 amended: a delete whose length becomes 0 after transformation is
processed like any accepted operation — the content is left unchanged (a
zero-length delete removes nothing) but the version still advances, the
transformed op is still appended to `pendingOps`, the originator is
acknowledged with the **new** version, and `BROADCAST_OP` is still sent to
peers. -/
theorem noop_transform_still_applied (client : Client) (state : DocumentState)
    (op : Operation) (d : String) (hd : client.docId = some d)
    (hv : validate state.content op = true) (ht : op.type = "delete")
    (hz : (transformAgainstTail state op).length = some 0) :
    handleApplyOp client state op =
      { newState := { content := state.content, version := state.version + 1,
                      pendingOps := state.pendingOps ++
                        [transformAgainstTail state op] },
        toOrigin := [.ackOp op.opId (state.version + 1)],
        toPeers := [.broadcastOp (transformAgainstTail state op)] } := by
  unfold handleApplyOp
  rw [hd, applyOperation_ok state op hv, apply_zero_length_delete]
  · rw [transformAgainstTail_type]; exact ht
  · rw [hz]; rfl

/-- Witness for C3 at the fixture: the fully-covered stale delete is acked
with version 2, appended, and broadcast, while the content stays `efgh`. -/
theorem noop_transform_still_applied_witness :
    handleApplyOp ⟨"alice", some "doc1"⟩ exC3state exC3op =
      { newState := { content := ['e', 'f', 'g', 'h'], version := 2,
                      pendingOps := [mkDelete "u" 0 4 0,
                        { exC3op with position := 0, length := some 0 }] },
        toOrigin := [.ackOp "op-del" 2],
        toPeers := [.broadcastOp { exC3op with position := 0, length := some 0 }] } := by
  rw [noop_transform_still_applied ⟨"alice", some "doc1"⟩ exC3state exC3op
    "doc1" rfl (by decide) (by decide) (by decide)]
  rfl

/- ### C4 -/

/-- Fixture for C4: history where an earlier insert at position 0 grew the
content, so a delete near the end, valid against the current content,
transforms past the end of the content. -/
def exC4state : DocumentState :=
  ⟨['X', 'Y', 'a', 'b', 'c', 'd'], 1, [mkInsert "u" 0 ['X', 'Y'] 0]⟩

/-- C4 counterexample: `delete(3,3)` at `baseVersion 0` is valid against the
current content, its transform `delete(5,3)` is **invalid** against the
current content (`5 + 3 > 6`), yet `applyOperation` succeeds and applies
the transformed op — validation ran on the original op before transforming,
not on `op'`. -/
theorem validate_transformed_not_checked_cex :
    validate exC4state.content (mkDelete "u" 3 3 0) = true ∧
    validate exC4state.content
      (transformAgainstTail exC4state (mkDelete "u" 3 3 0)) = false ∧
    applyOperation exC4state (mkDelete "u" 3 3 0) =
      .ok (⟨['X', 'Y', 'a', 'b', 'c'], 2,
             [mkInsert "u" 0 ['X', 'Y'] 0, { mkDelete "u" 3 3 0 with position := 5 }]⟩,
           2, { mkDelete "u" 3 3 0 with position := 5 }) := by decide

/-- C4 amended: validation runs on the **original** operation against the
current content, before any transform: the call fails (with `Invalid
operation`) exactly when `validate(content, op)` is false, and on success
the transformed op is applied without being re-validated. -/
theorem validate_runs_on_original (state : DocumentState) (op : Operation) :
    (applyOperation state op = .error "Invalid operation" ↔
      validate state.content op = false) ∧
    (validate state.content op = true →
      applyOperation state op =
        .ok ({ content := OTEngine.apply state.content
                 (transformAgainstTail state op),
               version := state.version + 1,
               pendingOps := state.pendingOps ++ [transformAgainstTail state op] },
             state.version + 1, transformAgainstTail state op)) := by
  refine ⟨⟨fun h => ?_, applyOperation_error state op⟩, applyOperation_ok state op⟩
  by_cases hv : validate state.content op
  · rw [applyOperation_ok state op hv] at h
    cases h
  · simpa using hv

/-- Witness for C4 at the counterexample fixture: the original op
validates, so the call succeeds even though the transformed op does not
validate. -/
theorem validate_runs_on_original_witness :
    validate exC4state.content (mkDelete "u" 3 3 0) = true ∧
    applyOperation exC4state (mkDelete "u" 3 3 0) =
      .ok (⟨['X', 'Y', 'a', 'b', 'c'], 2,
             [mkInsert "u" 0 ['X', 'Y'] 0, { mkDelete "u" 3 3 0 with position := 5 }]⟩,
           2, { mkDelete "u" 3 3 0 with position := 5 }) := by
  have h := (validate_runs_on_original exC4state (mkDelete "u" 3 3 0)).2 (by decide)
  exact ⟨by decide, by rw [h]; rfl⟩

/- ### C5 -/

/-- C5 counterexample: two valid inserts at the **same** position with
different texts violate TP1 — the `otherOp.position <= op.position`
tie-break shifts each op past the other on both sides, so the two orders
interleave the texts differently (`aXYb` vs `aYXb`). -/
theorem tp1_same_position_insert_cex :
    validate ['a', 'b'] (mkInsert "u" 1 ['X'] 0) = true ∧
    validate ['a', 'b'] (mkInsert "v" 1 ['Y'] 0) = true ∧
    OTEngine.apply (OTEngine.apply ['a', 'b'] (mkInsert "u" 1 ['X'] 0))
        (transform (mkInsert "v" 1 ['Y'] 0) (mkInsert "u" 1 ['X'] 0)) ≠
      OTEngine.apply (OTEngine.apply ['a', 'b'] (mkInsert "v" 1 ['Y'] 0))
        (transform (mkInsert "u" 1 ['X'] 0) (mkInsert "v" 1 ['Y'] 0)) := by
  decide

/-- C5 amended: TP1 holds for concurrent operations `a`, `b` valid against
the same base content when they are insert/insert at **distinct** positions
(at equal positions the asymmetric tie-break breaks TP1), or insert versus
delete that do not alias (the insert position is at or before the start of
the deleted range, or at or after its end). -/
theorem tp1_insert_cases (s : List Char) (a b : Operation)
    (ha : validate s a = true) (hb : validate s b = true)
    (hcase :
      (a.type = "insert" ∧ b.type = "insert" ∧ a.position ≠ b.position) ∨
      (a.type = "insert" ∧ b.type = "delete" ∧
        (a.position ≤ b.position ∨
          b.position + b.length.getD 0 ≤ a.position)) ∨
      (a.type = "delete" ∧ b.type = "insert" ∧
        (b.position ≤ a.position ∨
          a.position + a.length.getD 0 ≤ b.position))) :
    OTEngine.apply (OTEngine.apply s a) (transform b a) =
      OTEngine.apply (OTEngine.apply s b) (transform a b) := by
  rcases hcase with ⟨hat, hbt, hne⟩ | ⟨hat, hbt, hor⟩ | ⟨hat, hbt, hor⟩
  · rcases Nat.lt_or_ge a.position b.position with hlt | hge
    · exact tp1_ins_ins_lt s a b hb hat hbt hlt
    · exact (tp1_ins_ins_lt s b a ha hbt hat (by omega)).symm
  · rcases hor with hle | hge
    · exact tp1_ins_del_left s a b hb hat hbt hle
    · exact tp1_ins_del_right s a b ha hb hat hbt hge
  · rcases hor with hle | hge
    · exact (tp1_ins_del_left s b a ha hbt hat hle).symm
    · exact (tp1_ins_del_right s b a hb ha hbt hat hge).symm

/-- Witness for C5: two valid inserts at distinct positions (0 and 2)
converge. -/
theorem tp1_insert_cases_witness :
    OTEngine.apply (OTEngine.apply ['a', 'b', 'c'] (mkInsert "u" 0 ['X'] 0))
        (transform (mkInsert "v" 2 ['Y'] 0) (mkInsert "u" 0 ['X'] 0)) =
      OTEngine.apply (OTEngine.apply ['a', 'b', 'c'] (mkInsert "v" 2 ['Y'] 0))
        (transform (mkInsert "u" 0 ['X'] 0) (mkInsert "v" 2 ['Y'] 0)) :=
  tp1_insert_cases ['a', 'b', 'c'] (mkInsert "u" 0 ['X'] 0)
    (mkInsert "v" 2 ['Y'] 0) (by decide) (by decide)
    (Or.inl ⟨rfl, rfl, by decide⟩)

/- ### C6 -/

/-- C6: two overlapping deletes, both valid on the same base, converge to
the same final string under both transform orders (the overlap-subtraction
rule removes exactly the union of the two ranges on each side, even when
one side becomes a zero-length no-op). -/
theorem delete_delete_convergence (s : List Char) (a b : Operation)
    (ha : validate s a = true) (hb : validate s b = true)
    (hat : a.type = "delete") (hbt : b.type = "delete")
    (h1 : a.position < b.position + b.length.getD 0)
    (h2 : b.position < a.position + a.length.getD 0) :
    OTEngine.apply (OTEngine.apply s a) (transform b a) =
      OTEngine.apply (OTEngine.apply s b) (transform a b) := by
  obtain ⟨hla, hba⟩ := validate_delete_facts s a ha hat
  obtain ⟨hlb, hbb⟩ := validate_delete_facts s b hb hbt
  rw [transform_del_del_overlap b a hbt hat h1 h2,
      transform_del_del_overlap a b hat hbt h2 h1,
      apply_delete_eq s a hat, apply_delete_eq s b hbt,
      apply_delete_eq _
        { b with
          position := min a.position b.position,
          length := some (b.length.getD 0 -
            (min (a.position + a.length.getD 0)
                 (b.position + b.length.getD 0) -
             max a.position b.position)) } hbt,
      apply_delete_eq _
        { a with
          position := min b.position a.position,
          length := some (a.length.getD 0 -
            (min (b.position + b.length.getD 0)
                 (a.position + a.length.getD 0) -
             max b.position a.position)) } hat]
  show deleteAt (deleteAt s a.position (a.length.getD 0))
      (min a.position b.position) (b.length.getD 0 -
        (min (a.position + a.length.getD 0) (b.position + b.length.getD 0) -
         max a.position b.position)) =
    deleteAt (deleteAt s b.position (b.length.getD 0))
      (min b.position a.position) (a.length.getD 0 -
        (min (b.position + b.length.getD 0) (a.position + a.length.getD 0) -
         max b.position a.position))
  rw [deleteAt_deleteAt s a.position (a.length.getD 0) b.position
        (b.length.getD 0) hba h1 h2,
      deleteAt_deleteAt s b.position (b.length.getD 0) a.position
        (a.length.getD 0) hbb h2 h1,
      show min b.position a.position = min a.position b.position by omega,
      show max (b.position + b.length.getD 0) (a.position + a.length.getD 0) =
        max (a.position + a.length.getD 0) (b.position + b.length.getD 0) by omega]

/-- Witness for C6: the overlapping deletes `delete(2,4)` and `delete(3,3)`
on `abcdefgh` converge. -/
theorem delete_delete_convergence_witness :
    OTEngine.apply
        (OTEngine.apply ['a', 'b', 'c', 'd', 'e', 'f', 'g', 'h']
          (mkDelete "u" 2 4 0))
        (transform (mkDelete "v" 3 3 0) (mkDelete "u" 2 4 0)) =
      OTEngine.apply
        (OTEngine.apply ['a', 'b', 'c', 'd', 'e', 'f', 'g', 'h']
          (mkDelete "v" 3 3 0))
        (transform (mkDelete "u" 2 4 0) (mkDelete "v" 3 3 0)) :=
  delete_delete_convergence ['a', 'b', 'c', 'd', 'e', 'f', 'g', 'h']
    (mkDelete "u" 2 4 0) (mkDelete "v" 3 3 0) (by decide) (by decide)
    rfl rfl (by decide) (by decide)

/- ### C7 -/

/-- C7 counterexample: a valid insert is applied (content, version,
pendingOps all mutated), then the due write-back's store write fails; the
rejection propagates out of `applyOperation` and the catch in
`handleMessage` sends `ERROR` to the originator — with the document state
already changed, contrary to "the document state is unchanged" for any
reported error. -/
theorem persist_failure_state_mutated_cex :
    handleApplyOpWithPersist ⟨"alice", some "doc1"⟩ ⟨['h', 'i'], 0, []⟩
        (mkInsert "u" 0 ['x'] 0) true (.error "store unavailable") =
      { newState := ⟨['x', 'h', 'i'], 1, [mkInsert "u" 0 ['x'] 0]⟩,
        toOrigin := [.error "store unavailable"], toPeers := [] } ∧
    DocumentState.mk ['x', 'h', 'i'] 1 [mkInsert "u" 0 ['x'] 0] ≠
      ⟨['h', 'i'], 0, []⟩ := by decide

/-- C7 amended: every error thrown on the apply path of a joined document
is reported to the originating session alone via `ERROR`, and no message
about it reaches any peer.  A validation failure (`Invalid operation`) is
thrown before any mutation, so there the state is exactly unchanged; but a
store-write failure during the due write-back is thrown **after** the
operation was applied, so that `ERROR` reaches the originator with the
content already updated, the version advanced and the transformed op
appended to `pendingOps`. -/
theorem error_to_origin_only_state_paths (client : Client)
    (state : DocumentState) (op : Operation) (persistDue : Bool)
    (store : Except String Unit) (d : String) (hd : client.docId = some d)
    (e : String)
    (he : (applyOperationWithPersist state op persistDue store).2 =
      .error e) :
    handleApplyOpWithPersist client state op persistDue store =
      { newState := (applyOperationWithPersist state op persistDue store).1,
        toOrigin := [.error e], toPeers := [] } ∧
    (validate state.content op = false →
      (applyOperationWithPersist state op persistDue store).1 = state ∧
      e = "Invalid operation") ∧
    (validate state.content op = true →
      persistDue = true ∧ store = Except.error e ∧
      (applyOperationWithPersist state op persistDue store).1 =
        { content := OTEngine.apply state.content
            (transformAgainstTail state op),
          version := state.version + 1,
          pendingOps := state.pendingOps ++
            [transformAgainstTail state op] }) := by
  refine ⟨?_, fun hv => ?_, fun hv => ?_⟩
  · unfold handleApplyOpWithPersist
    rw [hd]
    rcases hao : applyOperationWithPersist state op persistDue store
      with ⟨st, res⟩
    rw [hao] at he
    cases res with
    | error e2 =>
        obtain rfl : e2 = e := by simpa using he
        rfl
    | ok r => simp at he
  · rw [applyOperationWithPersist_validate_false state op persistDue store hv]
      at he ⊢
    exact ⟨rfl, by simpa using he.symm⟩
  · cases persistDue with
    | false =>
        rw [applyOperationWithPersist_noPersist state op store hv] at he
        simp at he
    | true =>
        cases store with
        | ok u =>
            rw [applyOperationWithPersist_persist_ok state op u hv] at he
            simp at he
        | error e2 =>
            rw [applyOperationWithPersist_persist_fail state op e2 hv] at he ⊢
            obtain rfl : e2 = e := by simpa using he
            exact ⟨rfl, rfl, rfl⟩

/-- Witness for C7 at the counterexample inputs: the persist-failure error
goes to the originator only, with the state already mutated. -/
theorem error_to_origin_only_state_paths_witness :
    handleApplyOpWithPersist ⟨"alice", some "doc1"⟩ ⟨['h', 'i'], 0, []⟩
        (mkInsert "u" 0 ['x'] 0) true (.error "store unavailable") =
      { newState := ⟨['x', 'h', 'i'], 1, [mkInsert "u" 0 ['x'] 0]⟩,
        toOrigin := [.error "store unavailable"], toPeers := [] } ∧
    validate (['h', 'i'] : List Char) (mkInsert "u" 0 ['x'] 0) = true := by
  have h := error_to_origin_only_state_paths ⟨"alice", some "doc1"⟩
    ⟨['h', 'i'], 0, []⟩ (mkInsert "u" 0 ['x'] 0) true
    (.error "store unavailable") "doc1" rfl "store unavailable" (by decide)
  exact ⟨by rw [h.1]; rfl, by decide⟩

/- ### C8 -/

/-- C8 counterexample: the cursor update broadcast to peers is
`CURSOR_UPDATE{position}` with **no** `userId` property, so it does not
carry the originating user's identity. -/
theorem cursor_broadcast_missing_userId_cex :
    handleCursorUpdate ⟨"alice", some "doc1"⟩ 7 =
      some (.cursorUpdate none 7) ∧
    WSMessage.userIdField (.cursorUpdate none 7) = none ∧
    (none : Option String) ≠ some "alice" := by decide

/-- C8 amended: every `CURSOR_UPDATE` message broadcast to the other
sessions of a document carries the cursor position only; its `userId`
property is absent. -/
theorem cursor_broadcast_position_only (client : Client) (position : Nat)
    (d : String) (hd : client.docId = some d) :
    handleCursorUpdate client position =
      some (.cursorUpdate none position) ∧
    ∀ m, handleCursorUpdate client position = some m →
      m.userIdField = none := by
  unfold handleCursorUpdate
  rw [hd]
  exact ⟨rfl, by rintro m ⟨rfl⟩; rfl⟩

/-- Witness for C8 at concrete inputs. -/
theorem cursor_broadcast_position_only_witness :
    handleCursorUpdate ⟨"alice", some "doc1"⟩ 7 =
      some (.cursorUpdate none 7) ∧
    WSMessage.userIdField (.cursorUpdate none 7) = none :=
  ⟨(cursor_broadcast_position_only ⟨"alice", some "doc1"⟩ 7 "doc1" rfl).1,
   (cursor_broadcast_position_only ⟨"alice", some "doc1"⟩ 7 "doc1" rfl).2
     (.cursorUpdate none 7)
     (cursor_broadcast_position_only ⟨"alice", some "doc1"⟩ 7 "doc1" rfl).1⟩

end Claims

end Coderoom
